import Mathlib

/-
Verification of the resilient network request layer of CalTrack
(src/services/networkClient.ts), a fetch wrapper with per-attempt timeout,
bounded retry with exponential backoff, and cooperative cancellation.

The embedding is a shallow one.  The request issuer (the host `fetch`) and
the two racing abort sources (the per-attempt timeout timer and the external
abort signal) are modelled as an environment: for each attempt number the
environment records what `fetch` did on that attempt and the values the two
abort flags have at the three points where the source reads them
(`abortSignal.aborted` at the top of the loop, `abortSignal?.aborted` inside
the catch block, `controller.signal.aborted` inside the catch block).
The retry loop itself (networkClient.ts lines 95-194) is translated
statement by statement; the `for` loop over `attempt = 1 .. maxAttempts`
becomes structural recursion on the number of remaining iterations.
The run is instrumented with the number of times the request issuer was
invoked, the list of delays waited between attempts, and a flag recording
whether the loop was exited through its bottom (the "should not reach here"
fallback at line 197).
-/

namespace NetworkClient

/-- Error codes for network failures (networkClient.ts lines 7-12). -/
inductive ResilientFetchErrorCode where
  | timeout
  | aborted
  | offline
  | network
  | server
deriving DecidableEq, Repr

/-- The data of a `ResilientFetchError` (networkClient.ts lines 17-27):
a message, a code, and an optional HTTP status. -/
structure ResilientFetchError where
  message : String
  code : ResilientFetchErrorCode
  status : Option Nat := none
deriving DecidableEq, Repr

/-- The options of `resilientFetch` (networkClient.ts lines 32-45) with their
defaults (lines 81-89).  `retries` is an arbitrary integer, as any JS number
may be passed; `hasAbortSignal` records whether the caller supplied an
`abortSignal`.  `timeoutMs` is carried for completeness; in this model the
firing of the timeout timer is observed through the abort flags. -/
structure ResilientFetchOptions where
  timeoutMs : Nat := 30000
  retries : Int := 2
  retryDelayMs : Nat := 1500
  backoffFactor : Nat := 2
  hasAbortSignal : Bool := false
  retryOnStatuses : List Nat := [408, 429, 500, 502, 503, 504]
deriving DecidableEq, Repr

/-- `maxAttempts = retries + 1` (networkClient.ts line 93). -/
def ResilientFetchOptions.maxAttempts (o : ResilientFetchOptions) : Int :=
  o.retries + 1

/-- An exception thrown by the host `fetch` primitive: a `TypeError`
(how fetch reports transport-level failure), some other `Error` instance
(e.g. the `AbortError` DOMException produced by an aborted attempt), or a
thrown non-`Error` value. -/
inductive FetchExn where
  | typeError (msg : String)
  | otherError (msg : String)
  | nonErrorValue
deriving DecidableEq, Repr

/-- Outcome of one invocation of the request issuer: a response with a
status, or a rejection. -/
inductive FetchOutcome where
  | resp (status : Nat)
  | exn (e : FetchExn)
deriving DecidableEq, Repr

/-- Environment of one attempt: what the host did.  `extAbortedAtStart` is
`abortSignal.aborted` as read at line 102, `fetchResult` the outcome of the
`fetch` call at line 114, `extAbortedAtCatch` the value of
`abortSignal?.aborted` read at line 153, and `ctrlAborted` the value of
`controller.signal.aborted` read at line 158 (set by the timeout timer or by
the external-signal listener). -/
structure AttemptEnv where
  extAbortedAtStart : Bool
  fetchResult : FetchOutcome
  extAbortedAtCatch : Bool
  ctrlAborted : Bool
deriving DecidableEq, Repr

/-- Final outcome of a `resilientFetch` call: a returned response (its
status) or a thrown `ResilientFetchError`. -/
inductive RunResult where
  | success (status : Nat)
  | failure (e : ResilientFetchError)
deriving DecidableEq, Repr

/-- Instrumented result of a run: the outcome, how many times the request
issuer was invoked, the delays waited between attempts (in order), and
whether the loop was exited through the fallback after its last iteration
(networkClient.ts line 197). -/
structure RunOut where
  result : RunResult
  fetchCalls : Nat
  delays : List Nat
  fellThrough : Bool
deriving DecidableEq, Repr

/-- `response.ok`: status in the 2xx range. -/
def respOk (status : Nat) : Bool :=
  decide (200 ≤ status ∧ status < 300)

/-- The server error constructed at networkClient.ts lines 128-132 and
143-147. -/
def serverError (status : Nat) : ResilientFetchError :=
  { message := "HTTP error " ++ toString status
    code := .server
    status := some status }

/-- The error thrown on external cancellation (lines 103 and 154). -/
def abortedError : ResilientFetchError :=
  { message := "Request was aborted", code := .aborted }

/-- The error recorded when the per-attempt timer aborted the attempt
(line 159). -/
def timeoutError : ResilientFetchError :=
  { message := "Request timed out", code := .timeout }

/-- The error recorded on a transport-level failure (line 172). -/
def networkError : ResilientFetchError :=
  { message := "Network request failed", code := .network }

/-- A value caught by the catch block at line 149: either an exception from
the request issuer, or the `ResilientFetchError` the code itself threw at
line 143 for a non-retryable (or budget-exhausted) status. -/
inductive CaughtError where
  | fromFetch (e : FetchExn)
  | ownThrow (e : ResilientFetchError)
deriving DecidableEq, Repr

/-- What the catch block decides to do: rethrow a terminal error, or record
`lastError` and continue to the next attempt. -/
inductive CatchAction where
  | fail (e : ResilientFetchError)
  | retry (newLast : ResilientFetchError)
deriving DecidableEq, Repr

/-- The catch block of networkClient.ts lines 149-193, as a classification:
external-signal abort is checked first (line 153), then abort of the
per-attempt controller, i.e. timeout (lines 158-168), then `TypeError`,
i.e. transport failure (lines 171-181), then a rethrown
`ResilientFetchError` (lines 184-186), then the unknown-error wrapper
(lines 189-192). -/
def catchClassify (o : ResilientFetchOptions) (e : AttemptEnv) (attempt : Nat)
    (caught : CaughtError) : CatchAction :=
  if o.hasAbortSignal && e.extAbortedAtCatch then
    .fail abortedError
  else if e.ctrlAborted then
    if (attempt : Int) < o.maxAttempts then .retry timeoutError
    else .fail timeoutError
  else
    match caught with
    | .fromFetch (.typeError _) =>
        if (attempt : Int) < o.maxAttempts then .retry networkError
        else .fail networkError
    | .ownThrow err => .fail err
    | .fromFetch (.otherError msg) => .fail { message := msg, code := .network }
    | .fromFetch .nonErrorValue =>
        .fail { message := "Unknown network error", code := .network }

/-- Outcome of one loop iteration: the pre-flight external-abort throw at
lines 102-104 (the request issuer is not invoked), a terminal outcome after
a `fetch` invocation, or a retry (`continue`) after a `fetch` invocation. -/
inductive StepOutcome where
  | abortPre
  | done (r : RunResult)
  | retry (newLast : ResilientFetchError)
deriving DecidableEq, Repr

/-- Lift a catch action to a step outcome. -/
def stepOfCatch : CatchAction → StepOutcome
  | .fail err => .done (.failure err)
  | .retry newLast => .retry newLast

/-- One iteration of the attempt loop, networkClient.ts lines 96-193:
the pre-flight external-abort check (lines 101-106), the `fetch` call, the
success return (lines 122-124), the retryable-status continue
(lines 127-140), the non-retryable-status throw (lines 143-147) which is
caught by the catch block, and the catch block itself. -/
def attemptStep (o : ResilientFetchOptions) (e : AttemptEnv) (attempt : Nat) :
    StepOutcome :=
  if o.hasAbortSignal && e.extAbortedAtStart then
    .abortPre
  else
    match e.fetchResult with
    | .resp status =>
        if respOk status then
          .done (.success status)
        else if status ∈ o.retryOnStatuses ∧ (attempt : Int) < o.maxAttempts then
          .retry (serverError status)
        else
          stepOfCatch (catchClassify o e attempt (.ownThrow (serverError status)))
    | .exn ex => stepOfCatch (catchClassify o e attempt (.fromFetch ex))

/-- The attempt loop of networkClient.ts lines 95-194 together with the
fallback at line 197, by structural recursion on the number `remaining` of
iterations left (initially `maxAttempts.toNat`).  The accumulators carry the
current attempt number, the current backoff delay, the recorded `lastError`,
the number of issuer invocations so far and the delays waited so far.
A retry waits `currentDelay`, multiplies it by `backoffFactor` and records
the new `lastError`, on all three retry paths alike (lines 134-139, 161-166,
174-179). -/
def resilientLoop (o : ResilientFetchOptions) (env : Nat → AttemptEnv) :
    Nat → Nat → Nat → Option ResilientFetchError → Nat → List Nat → RunOut
  | 0, _attempt, _currentDelay, lastError, calls, delays =>
      { result := .failure
          (lastError.getD { message := "Request failed", code := .network })
        fetchCalls := calls
        delays := delays
        fellThrough := true }
  | remaining + 1, attempt, currentDelay, _lastError, calls, delays =>
      match attemptStep o (env attempt) attempt with
      | .abortPre =>
          { result := .failure abortedError
            fetchCalls := calls
            delays := delays
            fellThrough := false }
      | .done r =>
          { result := r
            fetchCalls := calls + 1
            delays := delays
            fellThrough := false }
      | .retry newLast =>
          resilientLoop o env remaining (attempt + 1)
            (currentDelay * o.backoffFactor) (some newLast) (calls + 1)
            (delays ++ [currentDelay])

/-- `resilientFetch` (networkClient.ts lines 77-198): run the loop from
attempt 1 with `currentDelay = retryDelayMs`, `lastError = null`, and
`maxAttempts = retries + 1` iterations. -/
def resilientFetch (o : ResilientFetchOptions) (env : Nat → AttemptEnv) :
    RunOut :=
  resilientLoop o env o.maxAttempts.toNat 1 o.retryDelayMs none 0 []

/-- The geometric backoff schedule: `n` delays starting at `d`, each
multiplied by `f`. -/
def geomDelays (d f : Nat) : Nat → List Nat
  | 0 => []
  | n + 1 => d :: geomDelays (d * f) f n

/-- Well-formedness of an error value with respect to the run environment:
its code is never `offline`, its status is present exactly when the code is
`server`, and a present status is the status of some response the request
issuer actually produced. -/
def ErrWellFormed (env : Nat → AttemptEnv) (e : ResilientFetchError) : Prop :=
  e.code ≠ .offline ∧
    (e.status.isSome ↔ e.code = .server) ∧
    ∀ s, e.status = some s → ∃ k, (env k).fetchResult = .resp s

/- ### Helper lemmas -/

/-- A statusless error with a non-`server`, non-`offline` code is
well-formed. -/
theorem errWF_noStatus (env : Nat → AttemptEnv) (m : String)
    (c : ResilientFetchErrorCode) (h1 : c ≠ .offline) (h2 : c ≠ .server) :
    ErrWellFormed env { message := m, code := c } := by
  refine ⟨h1, by simp [h2], by simp⟩

/-- A server error built from a response the issuer produced is
well-formed. -/
theorem errWF_server (env : Nat → AttemptEnv) (s k : Nat)
    (h : (env k).fetchResult = .resp s) :
    ErrWellFormed env (serverError s) := by
  refine ⟨by simp [serverError], by simp [serverError], ?_⟩
  intro s2 hs2
  simp only [serverError, Option.some.injEq] at hs2
  exact ⟨k, hs2 ▸ h⟩

/-- `stepOfCatch` reflects terminal failures and retries back to the catch
action. -/
theorem stepOfCatch_eq (a : CatchAction) (err : ResilientFetchError)
    (h : stepOfCatch a = .done (.failure err) ∨ stepOfCatch a = .retry err) :
    a = .fail err ∨ a = .retry err := by
  cases a with
  | fail e =>
      rcases h with h | h
      · left
        simp only [stepOfCatch, StepOutcome.done.injEq, RunResult.failure.injEq] at h
        rw [h]
      · simp [stepOfCatch] at h
  | retry nl =>
      rcases h with h | h
      · simp [stepOfCatch] at h
      · right
        simp only [stepOfCatch, StepOutcome.retry.injEq] at h
        rw [h]

/-- Every error the catch block produces (terminally or as a recorded
`lastError`) is well-formed, provided the rethrown own error is. -/
theorem catchClassify_err_wf (o : ResilientFetchOptions)
    (env : Nat → AttemptEnv) (e1 : AttemptEnv) (attempt : Nat)
    (caught : CaughtError) (err : ResilientFetchError)
    (hcaught : ∀ er, caught = .ownThrow er → ErrWellFormed env er)
    (h : catchClassify o e1 attempt caught = .fail err ∨
         catchClassify o e1 attempt caught = .retry err) :
    ErrWellFormed env err := by
  unfold catchClassify at h
  split at h
  · rcases h with h | h
    · cases h
      exact errWF_noStatus env _ _ (by simp) (by simp)
    · cases h
  · split at h
    · split at h <;> rcases h with h | h <;> cases h <;>
        exact errWF_noStatus env _ _ (by simp) (by simp)
    · rcases hc : caught with ex | er
      · subst hc
        rcases ex with msg | msg | _ <;> simp only at h
        · split at h <;> rcases h with h | h <;> cases h <;>
            exact errWF_noStatus env _ _ (by simp) (by simp)
        · rcases h with h | h <;> cases h
          exact errWF_noStatus env _ _ (by simp) (by simp)
        · rcases h with h | h <;> cases h
          exact errWF_noStatus env _ _ (by simp) (by simp)
      · subst hc
        simp only at h
        rcases h with h | h <;> cases h
        exact hcaught err rfl

/-- Every error a loop iteration produces (terminally or as a recorded
`lastError`) is well-formed. -/
theorem attemptStep_err_wf (o : ResilientFetchOptions) (env : Nat → AttemptEnv)
    (attempt : Nat) (err : ResilientFetchError)
    (h : attemptStep o (env attempt) attempt = .done (.failure err) ∨
         attemptStep o (env attempt) attempt = .retry err) :
    ErrWellFormed env err := by
  rcases hf : (env attempt).fetchResult with status | ex
  · simp only [attemptStep, hf] at h
    split at h
    · rcases h with h | h <;> cases h
    · split at h
      · rcases h with h | h <;> cases h
      · split at h
        · rcases h with h | h <;> cases h
          exact errWF_server env status attempt hf
        · refine catchClassify_err_wf o env (env attempt) attempt
            (.ownThrow (serverError status)) err ?_ (stepOfCatch_eq _ _ h)
          intro er her
          cases her
          exact errWF_server env status attempt hf
  · simp only [attemptStep, hf] at h
    split at h
    · rcases h with h | h <;> cases h
    · refine catchClassify_err_wf o env (env attempt) attempt
        (.fromFetch ex) err ?_ (stepOfCatch_eq _ _ h)
      intro er her
      cases her

/-- Every error the loop produces is well-formed, given that the recorded
`lastError` is. -/
theorem resilientLoop_err_wf (o : ResilientFetchOptions)
    (env : Nat → AttemptEnv) :
    ∀ remaining attempt currentDelay lastError calls delays
      (e : ResilientFetchError),
      (∀ le, lastError = some le → ErrWellFormed env le) →
      (resilientLoop o env remaining attempt currentDelay lastError calls
          delays).result = .failure e →
      ErrWellFormed env e := by
  intro remaining
  induction remaining with
  | zero =>
      intro attempt currentDelay lastError calls delays e hlast h
      simp only [resilientLoop, RunResult.failure.injEq] at h
      cases lastError with
      | none =>
          simp only [Option.getD_none] at h
          exact h ▸ errWF_noStatus env _ _ (by simp) (by simp)
      | some le =>
          simp only [Option.getD_some] at h
          exact h ▸ hlast le rfl
  | succ m ih =>
      intro attempt currentDelay lastError calls delays e hlast h
      simp only [resilientLoop] at h
      rcases hs : attemptStep o (env attempt) attempt with _ | r | nl <;>
        rw [hs] at h
      · simp only [RunResult.failure.injEq] at h
        exact h ▸ errWF_noStatus env _ _ (by simp) (by simp)
      · simp only at h
        exact attemptStep_err_wf o env attempt e (Or.inl (h ▸ hs))
      · exact ih (attempt + 1) (currentDelay * o.backoffFactor) (some nl)
          (calls + 1) (delays ++ [currentDelay]) e
          (fun le hle => by
            injection hle with hle2
            exact hle2 ▸ attemptStep_err_wf o env attempt nl (Or.inr hs)) h

/-- The catch block never asks for a retry once the attempt budget is
reached: both of its retry paths are guarded by `attempt < maxAttempts`. -/
theorem catchClassify_no_retry (o : ResilientFetchOptions) (e1 : AttemptEnv)
    (attempt : Nat) (caught : CaughtError) (nl : ResilientFetchError)
    (hmax : ¬ (attempt : Int) < o.maxAttempts) :
    catchClassify o e1 attempt caught ≠ .retry nl := by
  intro h
  unfold catchClassify at h
  repeat' split at h
  all_goals cases h

/-- A terminal failure of `stepOfCatch` comes from a `fail` action, a retry
from a `retry` action. -/
theorem stepOfCatch_retry (a : CatchAction) (nl : ResilientFetchError)
    (h : stepOfCatch a = .retry nl) : a = .retry nl := by
  cases a with
  | fail e => simp [stepOfCatch] at h
  | retry n2 =>
      simp only [stepOfCatch, StepOutcome.retry.injEq] at h
      rw [h]

/-- A loop iteration never asks for a retry once the attempt budget is
reached. -/
theorem attemptStep_no_retry (o : ResilientFetchOptions) (e1 : AttemptEnv)
    (attempt : Nat) (nl : ResilientFetchError)
    (hmax : ¬ (attempt : Int) < o.maxAttempts) :
    attemptStep o e1 attempt ≠ .retry nl := by
  intro h
  rcases hf : e1.fetchResult with status | ex <;>
    simp only [attemptStep, hf] at h
  · split at h
    · cases h
    · split at h
      · cases h
      · split at h
        · rename_i hcond
          exact hmax hcond.2
        · exact catchClassify_no_retry o e1 attempt _ nl hmax
            (stepOfCatch_retry _ _ h)
  · split at h
    · cases h
    · exact catchClassify_no_retry o e1 attempt _ nl hmax
        (stepOfCatch_retry _ _ h)

/-- The number of issuer invocations grows by at most one per remaining
iteration. -/
theorem resilientLoop_fetchCalls_le (o : ResilientFetchOptions)
    (env : Nat → AttemptEnv) :
    ∀ remaining attempt currentDelay lastError calls delays,
      (resilientLoop o env remaining attempt currentDelay lastError calls
          delays).fetchCalls ≤ calls + remaining := by
  intro remaining
  induction remaining with
  | zero =>
      intro attempt currentDelay lastError calls delays
      simp [resilientLoop]
  | succ m ih =>
      intro attempt currentDelay lastError calls delays
      simp only [resilientLoop]
      rcases hs : attemptStep o (env attempt) attempt with _ | r | nl <;>
        simp only
      · omega
      · omega
      · exact le_trans (ih (attempt + 1) _ _ _ _) (by omega)

/-- When the external signal is already aborted at the top of an iteration
that runs, the loop throws `aborted` without invoking the issuer again. -/
theorem resilientLoop_pre_abort (o : ResilientFetchOptions)
    (env : Nat → AttemptEnv) (remaining attempt currentDelay calls : Nat)
    (lastError : Option ResilientFetchError) (delays : List Nat)
    (hsig : o.hasAbortSignal = true) (hrem : 1 ≤ remaining)
    (hpre : (env attempt).extAbortedAtStart = true) :
    resilientLoop o env remaining attempt currentDelay lastError calls delays =
      { result := .failure abortedError, fetchCalls := calls, delays := delays
        fellThrough := false } := by
  obtain ⟨m, rfl⟩ : ∃ m, remaining = m + 1 := ⟨remaining - 1, by omega⟩
  simp only [resilientLoop]
  have hstep : attemptStep o (env attempt) attempt = .abortPre := by
    simp [attemptStep, hsig, hpre]
  rw [hstep]

/-- `maxAttempts.toNat = n + 1` when `retries = n ≥ 0`. -/
theorem maxAttempts_toNat (o : ResilientFetchOptions) (n : Nat)
    (hret : o.retries = (n : Int)) : o.maxAttempts.toNat = n + 1 := by
  unfold ResilientFetchOptions.maxAttempts
  omega

/-- As long as the attempt counter is in step with the remaining fuel
(`attempt + remaining = maxAttempts + 1`, as at entry) and at least one
iteration runs, the loop never exits through its bottom: the last iteration
cannot ask for a retry. -/
theorem resilientLoop_no_fallthrough (o : ResilientFetchOptions)
    (env : Nat → AttemptEnv) :
    ∀ (remaining attempt currentDelay : Nat)
      (lastError : Option ResilientFetchError) (calls : Nat)
      (delays : List Nat),
      1 ≤ remaining →
      (attempt : Int) + (remaining : Int) = o.maxAttempts + 1 →
      (resilientLoop o env remaining attempt currentDelay lastError calls
          delays).fellThrough = false := by
  intro remaining
  induction remaining with
  | zero =>
      intro attempt currentDelay lastError calls delays h1 _
      omega
  | succ m ih =>
      intro attempt currentDelay lastError calls delays _ h2
      simp only [resilientLoop]
      rcases hs : attemptStep o (env attempt) attempt with _ | r | nl
      · rfl
      · rfl
      · cases m with
        | zero =>
            exfalso
            exact attemptStep_no_retry o (env attempt) attempt nl
              (by omega) hs
        | succ m2 =>
            exact ih (attempt + 1) (currentDelay * o.backoffFactor) (some nl)
              (calls + 1) (delays ++ [currentDelay]) (by omega) (by push_cast at h2 ⊢; omega)

/-- Length of the geometric schedule. -/
theorem geomDelays_length (d f : Nat) : ∀ n, (geomDelays d f n).length = n := by
  intro n
  induction n generalizing d with
  | zero => rfl
  | succ m ih => simp [geomDelays, ih]

/-- Element `i` of the geometric schedule is `d * f ^ i`. -/
theorem geomDelays_getD (f : Nat) :
    ∀ n d i, i < n → (geomDelays d f n).getD i 0 = d * f ^ i := by
  intro n
  induction n with
  | zero => intro d i hi; omega
  | succ m ih =>
      intro d i hi
      cases i with
      | zero => simp [geomDelays]
      | succ j =>
          have := ih (d * f) j (by omega)
          simp only [geomDelays, List.getD_cons_succ, this]
          ring

/-- Appending the next delay extends the geometric schedule by one. -/
theorem geomDelays_snoc (f : Nat) :
    ∀ n d, geomDelays d f n ++ [d * f ^ n] = geomDelays d f (n + 1) := by
  intro n
  induction n with
  | zero => intro d; simp [geomDelays]
  | succ m ih =>
      intro d
      have h2 : d * f ^ (m + 1) = (d * f) * f ^ m := by ring
      simp only [geomDelays, List.cons_append, h2, ih (d * f)]

/-- The delays a run appends always continue the geometric schedule started
at `d0`: if the delays so far are the first `k` entries of the schedule and
the current delay is entry `k`, the final delay list is an initial segment
of the same schedule. -/
theorem resilientLoop_delays_geom (o : ResilientFetchOptions)
    (env : Nat → AttemptEnv) (d0 : Nat) :
    ∀ remaining attempt currentDelay lastError calls k,
      currentDelay = d0 * o.backoffFactor ^ k →
      ∃ k2, (resilientLoop o env remaining attempt currentDelay lastError
          calls (geomDelays d0 o.backoffFactor k)).delays
        = geomDelays d0 o.backoffFactor k2 := by
  intro remaining
  induction remaining with
  | zero =>
      intro attempt currentDelay lastError calls k _
      exact ⟨k, rfl⟩
  | succ m ih =>
      intro attempt currentDelay lastError calls k hcd
      simp only [resilientLoop]
      rcases hs : attemptStep o (env attempt) attempt with _ | r | nl
      · exact ⟨k, rfl⟩
      · exact ⟨k, rfl⟩
      · have hsnoc : geomDelays d0 o.backoffFactor k ++ [currentDelay]
            = geomDelays d0 o.backoffFactor (k + 1) := by
          rw [hcd]
          exact geomDelays_snoc o.backoffFactor k d0
        rw [hsnoc]
        exact ih (attempt + 1) (currentDelay * o.backoffFactor) (some nl)
          (calls + 1) (k + 1) (by rw [hcd]; ring)

/-- When every attempt yields a retryable non-2xx status `s` and neither
abort flag is ever set, the loop runs all its remaining iterations, waits
the geometric schedule between them, and ends with the `server` error for
`s`. -/
theorem resilientLoop_retryable_exhaustion (o : ResilientFetchOptions)
    (env : Nat → AttemptEnv) (s : Nat)
    (hs : s ∈ o.retryOnStatuses) (hnok : respOk s = false)
    (henv : ∀ k, env k = ⟨false, .resp s, false, false⟩) :
    ∀ (remaining attempt currentDelay : Nat)
      (lastError : Option ResilientFetchError) (calls : Nat)
      (delays : List Nat),
      1 ≤ remaining →
      (attempt : Int) + (remaining : Int) = o.maxAttempts + 1 →
      resilientLoop o env remaining attempt currentDelay lastError calls
          delays =
        { result := .failure (serverError s)
          fetchCalls := calls + remaining
          delays := delays ++ geomDelays currentDelay o.backoffFactor
            (remaining - 1)
          fellThrough := false } := by
  intro remaining
  induction remaining with
  | zero =>
      intro attempt currentDelay lastError calls delays h1 _
      omega
  | succ m ih =>
      intro attempt currentDelay lastError calls delays _ h2
      simp only [resilientLoop]
      cases m with
      | zero =>
          have hmax : ¬ (attempt : Int) < o.maxAttempts := by omega
          have hstep : attemptStep o (env attempt) attempt
              = .done (.failure (serverError s)) := by
            simp [attemptStep, henv attempt, hnok, catchClassify, stepOfCatch,
              hmax]
          rw [hstep]
          simp [geomDelays]
      | succ m2 =>
          have hmax : (attempt : Int) < o.maxAttempts := by push_cast at h2; omega
          have hstep : attemptStep o (env attempt) attempt
              = .retry (serverError s) := by
            simp [attemptStep, henv attempt, hnok, hs, hmax]
          simp only [hstep]
          rw [ih (attempt + 1) (currentDelay * o.backoffFactor)
            (some (serverError s)) (calls + 1) (delays ++ [currentDelay])
            (by omega) (by push_cast at h2 ⊢; omega)]
          have hcalls : calls + 1 + (m2 + 1) = calls + (m2 + 1 + 1) := by
            omega
          have hdel : (delays ++ [currentDelay]) ++ geomDelays
              (currentDelay * o.backoffFactor) o.backoffFactor (m2 + 1 - 1)
              = delays ++ geomDelays currentDelay o.backoffFactor
                (m2 + 1 + 1 - 1) := by
            rw [List.append_assoc, List.singleton_append]
            rfl
          rw [hcalls, hdel]

/- ### Claim theorems -/

/-- C1: external cancellation takes precedence over every other failure
classification.  If an attempt that actually runs has its request issuance
fail and the caller-supplied abort signal is in the aborted state at the
catch-block check, the call throws `code = aborted` at once — whatever the
exception was (so before any network classification), whether or not the
per-attempt controller was also aborted by the timeout timer at the same
moment, and however many attempts remain in the budget — and the request
issuer is not invoked again. -/
theorem abort_precedence_on_failure (o : ResilientFetchOptions)
    (env : Nat → AttemptEnv) (remaining attempt currentDelay calls : Nat)
    (lastError : Option ResilientFetchError) (delays : List Nat)
    (ex : FetchExn)
    (hsig : o.hasAbortSignal = true)
    (hrem : 1 ≤ remaining)
    (hpre : (env attempt).extAbortedAtStart = false)
    (hexn : (env attempt).fetchResult = .exn ex)
    (habort : (env attempt).extAbortedAtCatch = true) :
    resilientLoop o env remaining attempt currentDelay lastError calls delays
      = { result := .failure abortedError, fetchCalls := calls + 1
          delays := delays, fellThrough := false } := by
  obtain ⟨m, rfl⟩ : ∃ m, remaining = m + 1 := ⟨remaining - 1, by omega⟩
  have hstep : attemptStep o (env attempt) attempt
      = .done (.failure abortedError) := by
    simp [attemptStep, hpre, hexn, catchClassify, stepOfCatch, hsig, habort]
  simp only [resilientLoop, hstep]

theorem abort_precedence_on_failure_witness :
    resilientLoop { hasAbortSignal := true }
        (fun _ => ⟨false, .exn (.typeError "reset"), true, true⟩)
        3 1 1500 none 0 []
      = { result := .failure abortedError, fetchCalls := 1, delays := []
          fellThrough := false } :=
  abort_precedence_on_failure { hasAbortSignal := true }
    (fun _ => ⟨false, .exn (.typeError "reset"), true, true⟩)
    3 1 1500 0 none [] (.typeError "reset")
    rfl (by decide) rfl rfl rfl

/-- C2: for `retries = n ≥ 0` the request issuer is invoked at most `n + 1`
times for a single call, whatever the sequence of outcomes; when the
external signal is already aborted before the first attempt it is invoked
zero times.  (The run is a total function of the environment, so
termination holds by construction.) -/
theorem bounded_attempts (o : ResilientFetchOptions) (env : Nat → AttemptEnv)
    (n : Nat) (hret : o.retries = (n : Int)) :
    (resilientFetch o env).fetchCalls ≤ n + 1 ∧
      (o.hasAbortSignal = true → (env 1).extAbortedAtStart = true →
        (resilientFetch o env).fetchCalls = 0) := by
  constructor
  · rw [resilientFetch, maxAttempts_toNat o n hret]
    have h := resilientLoop_fetchCalls_le o env (n + 1) 1 o.retryDelayMs
      none 0 []
    simpa using h
  · intro hsig hpre
    rw [resilientFetch, resilientLoop_pre_abort o env o.maxAttempts.toNat 1
      o.retryDelayMs 0 none [] hsig
      (by rw [maxAttempts_toNat o n hret]; omega) hpre]

theorem bounded_attempts_witness :
    (resilientFetch {} (fun _ => ⟨false, .resp 503, false, false⟩)).fetchCalls
        ≤ 3 ∧
      (resilientFetch { hasAbortSignal := true }
          (fun _ => ⟨true, .resp 200, false, false⟩)).fetchCalls = 0 :=
  ⟨(bounded_attempts {} (fun _ => ⟨false, .resp 503, false, false⟩) 2
      (by decide)).1,
   (bounded_attempts { hasAbortSignal := true }
      (fun _ => ⟨true, .resp 200, false, false⟩) 2 (by decide)).2 rfl rfl⟩

/-- C3: a request-issuance failure that is neither an external cancellation
nor an internal timeout — a transport-level fault, which the source
identifies as a `TypeError` thrown by `fetch` (DNS failure, connection
reset, TLS failure) — is recorded as a `code = network` failure; while
attempts remain the loop waits the current backoff delay and retries, and
only once attempts are exhausted does it throw the `network` error. -/
theorem network_fault_retry (o : ResilientFetchOptions)
    (env : Nat → AttemptEnv) (remaining attempt currentDelay calls : Nat)
    (lastError : Option ResilientFetchError) (delays : List Nat)
    (msg : String)
    (hrem : 1 ≤ remaining)
    (hpre : (env attempt).extAbortedAtStart = false)
    (hexn : (env attempt).fetchResult = .exn (.typeError msg))
    (hext : (o.hasAbortSignal && (env attempt).extAbortedAtCatch) = false)
    (hctrl : (env attempt).ctrlAborted = false) :
    ((attempt : Int) < o.maxAttempts →
      resilientLoop o env remaining attempt currentDelay lastError calls
          delays
        = resilientLoop o env (remaining - 1) (attempt + 1)
            (currentDelay * o.backoffFactor) (some networkError) (calls + 1)
            (delays ++ [currentDelay])) ∧
    (¬ (attempt : Int) < o.maxAttempts →
      resilientLoop o env remaining attempt currentDelay lastError calls
          delays
        = { result := .failure networkError, fetchCalls := calls + 1
            delays := delays, fellThrough := false }) := by
  obtain ⟨m, rfl⟩ : ∃ m, remaining = m + 1 := ⟨remaining - 1, by omega⟩
  constructor
  · intro hlt
    have hstep : attemptStep o (env attempt) attempt = .retry networkError := by
      simp [attemptStep, hpre, hexn, catchClassify, stepOfCatch, hext, hctrl,
        hlt]
    simp only [resilientLoop, hstep]
    rfl
  · intro hge
    have hstep : attemptStep o (env attempt) attempt
        = .done (.failure networkError) := by
      simp [attemptStep, hpre, hexn, catchClassify, stepOfCatch, hext, hctrl,
        hge]
    simp only [resilientLoop, hstep]

theorem network_fault_retry_witness :
    (resilientLoop {} (fun _ => ⟨false, .exn (.typeError "dns"), false, false⟩)
        3 1 1500 none 0 []
      = resilientLoop {}
          (fun _ => ⟨false, .exn (.typeError "dns"), false, false⟩)
          2 2 3000 (some networkError) 1 [1500]) ∧
    (resilientLoop {} (fun _ => ⟨false, .exn (.typeError "dns"), false, false⟩)
        1 3 6000 (some networkError) 2 [1500, 3000]
      = { result := .failure networkError, fetchCalls := 3
          delays := [1500, 3000], fellThrough := false }) :=
  ⟨(network_fault_retry {}
      (fun _ => ⟨false, .exn (.typeError "dns"), false, false⟩)
      3 1 1500 0 none [] "dns" (by decide) rfl rfl (by decide) rfl).1
      (by decide),
   (network_fault_retry {}
      (fun _ => ⟨false, .exn (.typeError "dns"), false, false⟩)
      1 3 6000 2 (some networkError) [1500, 3000] "dns"
      (by decide) rfl rfl (by decide) rfl).2 (by decide)⟩

/-- C4: on every retry path alike, the i-th delay waited (0-based, i.e. the
wait before attempt i+2) equals `retryDelayMs * backoffFactor ^ i`: the
first retry waits `retryDelayMs` and the delay is multiplied by
`backoffFactor` after each retry. -/
theorem backoff_growth (o : ResilientFetchOptions) (env : Nat → AttemptEnv)
    (i : Nat) (hi : i < (resilientFetch o env).delays.length) :
    (resilientFetch o env).delays.getD i 0
      = o.retryDelayMs * o.backoffFactor ^ i := by
  obtain ⟨k2, hk2⟩ := resilientLoop_delays_geom o env o.retryDelayMs
    o.maxAttempts.toNat 1 o.retryDelayMs none 0 0 (by simp)
  have hk2' : (resilientFetch o env).delays
      = geomDelays o.retryDelayMs o.backoffFactor k2 := hk2
  rw [hk2'] at hi ⊢
  rw [geomDelays_length] at hi
  exact geomDelays_getD o.backoffFactor k2 o.retryDelayMs i hi

theorem backoff_growth_witness :
    (resilientFetch {} (fun _ => ⟨false, .resp 503, false, false⟩)).delays.getD
        1 0 = (1500 : Nat) * 2 ^ 1 :=
  backoff_growth {} (fun _ => ⟨false, .resp 503, false, false⟩) 1 (by decide)

/-- C5: when every attempt yields a response whose status is retryable (and
not 2xx) and the external signal is never aborted, the call makes exactly
`retries + 1` attempts, waits the geometric backoff schedule between
consecutive attempts, and terminally throws the `server` error carrying
that status. -/
theorem retryable_exhaustion (o : ResilientFetchOptions)
    (env : Nat → AttemptEnv) (n s : Nat)
    (hret : o.retries = (n : Int))
    (hs : s ∈ o.retryOnStatuses) (hnok : respOk s = false)
    (henv : ∀ k, env k = ⟨false, .resp s, false, false⟩) :
    resilientFetch o env =
      { result := .failure (serverError s), fetchCalls := n + 1
        delays := geomDelays o.retryDelayMs o.backoffFactor n
        fellThrough := false } := by
  rw [resilientFetch, maxAttempts_toNat o n hret]
  rw [resilientLoop_retryable_exhaustion o env s hs hnok henv (n + 1) 1
    o.retryDelayMs none 0 [] (by omega)
    (by unfold ResilientFetchOptions.maxAttempts; rw [hret]; push_cast; omega)]
  simp

theorem retryable_exhaustion_witness :
    resilientFetch {} (fun _ => ⟨false, .resp 503, false, false⟩) =
      { result := .failure (serverError 503), fetchCalls := 3
        delays := geomDelays 1500 2 2, fellThrough := false } :=
  retryable_exhaustion {} (fun _ => ⟨false, .resp 503, false, false⟩) 2 503
    (by decide) (by decide) (by decide) (fun k => rfl)

/-- C6: a first-attempt response whose status is neither 2xx nor in
`retryOnStatuses` makes the call throw the `server` error with that status
after exactly one issuer invocation and no delay, even when `retries > 0`
(any `retries ≥ 0`). -/
theorem nonretryable_short_circuit (o : ResilientFetchOptions)
    (env : Nat → AttemptEnv) (s : Nat)
    (hret : 0 ≤ o.retries)
    (hpre : (env 1).extAbortedAtStart = false)
    (hresp : (env 1).fetchResult = .resp s)
    (hext : (env 1).extAbortedAtCatch = false)
    (hctrl : (env 1).ctrlAborted = false)
    (hnok : respOk s = false)
    (hnr : s ∉ o.retryOnStatuses) :
    resilientFetch o env =
      { result := .failure (serverError s), fetchCalls := 1, delays := []
        fellThrough := false } := by
  obtain ⟨m, hm⟩ : ∃ m, o.maxAttempts.toNat = m + 1 := by
    refine ⟨o.maxAttempts.toNat - 1, ?_⟩
    unfold ResilientFetchOptions.maxAttempts
    omega
  have hstep : attemptStep o (env 1) 1 = .done (.failure (serverError s)) := by
    simp [attemptStep, hpre, hresp, hnok, hnr, catchClassify, stepOfCatch,
      hext, hctrl]
  rw [resilientFetch, hm]
  simp only [resilientLoop, hstep]

theorem nonretryable_short_circuit_witness :
    resilientFetch {} (fun _ => ⟨false, .resp 404, false, false⟩) =
      { result := .failure (serverError 404), fetchCalls := 1, delays := []
        fellThrough := false } :=
  nonretryable_short_circuit {} (fun _ => ⟨false, .resp 404, false, false⟩)
    404 (by decide) rfl rfl rfl rfl (by decide) (by decide)

/-- C7: when the caller-supplied abort signal is already aborted at the
moment of the call (and `retries ≥ 0`, as any valid configuration has), the
call throws `code = aborted` and the request issuer is invoked zero
times. -/
theorem pretriggered_abort (o : ResilientFetchOptions)
    (env : Nat → AttemptEnv)
    (hsig : o.hasAbortSignal = true) (hret : 0 ≤ o.retries)
    (hpre : (env 1).extAbortedAtStart = true) :
    resilientFetch o env =
      { result := .failure abortedError, fetchCalls := 0, delays := []
        fellThrough := false } := by
  rw [resilientFetch]
  exact resilientLoop_pre_abort o env o.maxAttempts.toNat 1 o.retryDelayMs 0
    none [] hsig (by unfold ResilientFetchOptions.maxAttempts; omega) hpre

theorem pretriggered_abort_witness :
    resilientFetch { hasAbortSignal := true }
        (fun _ => ⟨true, .resp 200, false, false⟩) =
      { result := .failure abortedError, fetchCalls := 0, delays := []
        fellThrough := false } :=
  pretriggered_abort { hasAbortSignal := true }
    (fun _ => ⟨true, .resp 200, false, false⟩) rfl (by decide) rfl

/-- C8: every failure `resilientFetch` produces has code `timeout`,
`aborted`, `network` or `server` — the `offline` member of the taxonomy is
never emitted by the core. -/
theorem never_offline (o : ResilientFetchOptions) (env : Nat → AttemptEnv)
    (e : ResilientFetchError)
    (h : (resilientFetch o env).result = .failure e) :
    e.code = .timeout ∨ e.code = .aborted ∨ e.code = .network ∨
      e.code = .server := by
  rw [resilientFetch] at h
  have hwf := resilientLoop_err_wf o env o.maxAttempts.toNat 1 o.retryDelayMs
    none 0 [] e (fun le hle => by cases hle) h
  obtain ⟨msg, c, st⟩ := e
  obtain ⟨hoff, -, -⟩ := hwf
  cases c <;> simp_all

theorem never_offline_witness :
    (serverError 404).code = .timeout ∨ (serverError 404).code = .aborted ∨
      (serverError 404).code = .network ∨ (serverError 404).code = .server :=
  never_offline {} (fun _ => ⟨false, .resp 404, false, false⟩)
    (serverError 404) (by decide)

/-- C9: in every failure `resilientFetch` produces, the `status` field is
present exactly when `code = server`, and a present status is the status of
a response the request issuer actually returned on some attempt.  (In this
embedding error values are immutable by construction, matching the
read-only `code` and `status` fields of the source class.) -/
theorem status_iff_server (o : ResilientFetchOptions) (env : Nat → AttemptEnv)
    (e : ResilientFetchError)
    (h : (resilientFetch o env).result = .failure e) :
    (e.status.isSome ↔ e.code = .server) ∧
      ∀ s, e.status = some s → ∃ k, (env k).fetchResult = .resp s := by
  rw [resilientFetch] at h
  have hwf := resilientLoop_err_wf o env o.maxAttempts.toNat 1 o.retryDelayMs
    none 0 [] e (fun le hle => by cases hle) h
  exact ⟨hwf.2.1, hwf.2.2⟩

theorem status_iff_server_witness :
    ((serverError 404).status.isSome ↔ (serverError 404).code = .server) ∧
      ∀ s, (serverError 404).status = some s →
        ∃ k, ((fun (_ : Nat) => (⟨false, .resp 404, false, false⟩ : AttemptEnv))
          k).fetchResult = .resp s :=
  status_iff_server {} (fun _ => ⟨false, .resp 404, false, false⟩)
    (serverError 404) (by decide)

/-- C10: with `retries ≥ 0` every call reaches a terminal outcome inside the
attempt loop, so the fallback after the loop is unreachable; only with
`retries < 0` does the loop body never run, and the call then throws the
generic `code = network` "Request failed" error with zero issuer
invocations. -/
theorem loop_exit_coverage (o : ResilientFetchOptions)
    (env : Nat → AttemptEnv) :
    (0 ≤ o.retries → (resilientFetch o env).fellThrough = false) ∧
      (o.retries < 0 →
        resilientFetch o env =
          { result := .failure
              { message := "Request failed", code := .network }
            fetchCalls := 0, delays := [], fellThrough := true }) := by
  constructor
  · intro h
    rw [resilientFetch]
    exact resilientLoop_no_fallthrough o env o.maxAttempts.toNat 1
      o.retryDelayMs none 0 []
      (by unfold ResilientFetchOptions.maxAttempts; omega)
      (by unfold ResilientFetchOptions.maxAttempts; omega)
  · intro h
    have hm : o.maxAttempts.toNat = 0 := by
      unfold ResilientFetchOptions.maxAttempts
      omega
    rw [resilientFetch, hm]
    rfl

theorem loop_exit_coverage_witness :
    (resilientFetch {} (fun _ => ⟨false, .resp 503, false, false⟩)).fellThrough
        = false ∧
      resilientFetch { retries := -1 }
          (fun _ => ⟨false, .resp 200, false, false⟩) =
        { result := .failure { message := "Request failed", code := .network }
          fetchCalls := 0, delays := [], fellThrough := true } :=
  ⟨(loop_exit_coverage {} (fun _ => ⟨false, .resp 503, false, false⟩)).1
      (by decide),
   (loop_exit_coverage { retries := -1 }
      (fun _ => ⟨false, .resp 200, false, false⟩)).2 (by decide)⟩

end NetworkClient
